import Mathlib

/-!
# Verification of the query-builder-wrapper data layer

A shallow embedding of the metadata-driven ORM layer: decorator metadata
registration (`decorators.ts`), value conversion (`types.ts`
`VALUE_CONVERTERS`), SQL compilation (`sqlite-dialect.ts` `SqliteCompiler`),
row hydration and the repository operations (`repository.ts`,
`type-guards.ts`), and the unit-of-work transaction wrapper
(`entity-manager.ts`).

JavaScript scalar values are modelled by `JSValue`; rows and entity
instances are ordered association lists of string keys to values.  The
storage engine (better-sqlite3 / SQLite) is an external collaborator;
its statement execution and transaction primitives are modelled from
their documented contracts where noted.
-/

/-- A JavaScript runtime value, restricted to the scalars this layer moves
between entities and SQLite.  A `Date` is identified by its epoch-millisecond
timestamp; `vInvalidDate` models an Invalid Date (NaN timestamp). -/
inductive JSValue where
  | vUndefined
  | vNull
  | vBool (b : Bool)
  | vInt (n : Int)
  | vStr (s : String)
  | vDate (t : Int)
  | vInvalidDate
  deriving DecidableEq, Repr

/-! ## Decimal digit rendering and reading

Used to model ECMAScript `Date.prototype.toISOString` output and the
parsing of that format performed by `new Date(string)`. -/

/-- The decimal digit character for `d` (`d < 10`): code point 48 + d. -/
def digitChar (d : Nat) : Char := Char.ofNat (48 + d % 10)

/-- The value of a decimal digit character, `none` for non-digits. -/
def digitVal (c : Char) : Option Nat :=
  if 48 ≤ c.toNat ∧ c.toNat ≤ 57 then some (c.toNat - 48) else none

/-- `n` rendered as exactly `w` decimal digits (most significant first),
zero padded; digits above the width are dropped. -/
def padNat : Nat → Nat → List Char
  | 0, _ => []
  | w + 1, n => digitChar (n / 10 ^ w % 10) :: padNat w n

/-- Read exactly `w` decimal digits from the front of `cs`, accumulating
onto `acc`; fails if a non-digit or end of input is hit. -/
def readDigits : Nat → Nat → List Char → Option (Nat × List Char)
  | 0, acc, cs => some (acc, cs)
  | _ + 1, _, [] => none
  | w + 1, acc, c :: cs =>
    match digitVal c with
    | some d => readDigits w (acc * 10 + d) cs
    | none => none

theorem digitVal_digitChar (d : Nat) (h : d < 10) : digitVal (digitChar d) = some d := by
  interval_cases d <;> rfl

theorem digitChar_ne_plus (d : Nat) (h : d < 10) : digitChar d ≠ '+' := by
  interval_cases d <;> decide

theorem digitChar_ne_minus (d : Nat) (h : d < 10) : digitChar d ≠ '-' := by
  interval_cases d <;> decide

theorem readDigits_pad (w : Nat) : ∀ (acc n : Nat) (rest : List Char),
    readDigits w acc (padNat w n ++ rest) = some (acc * 10 ^ w + n % 10 ^ w, rest) := by
  induction w with
  | zero => intro acc n rest; simp [padNat, readDigits, Nat.mod_one]
  | succ w ih =>
    intro acc n rest
    have hd : n / 10 ^ w % 10 < 10 := Nat.mod_lt _ (by norm_num)
    simp only [padNat, List.cons_append, readDigits, digitVal_digitChar _ hd, List.append_eq]
    rw [ih]
    congr 2
    have hsplit : n % (10 ^ w * 10) = n % 10 ^ w + 10 ^ w * (n / 10 ^ w % 10) :=
      Nat.mod_mul
    have hpow : (10 : Nat) ^ (w + 1) = 10 ^ w * 10 := pow_succ 10 w
    rw [hpow, hsplit]
    ring

theorem readDigits_pad0 (w n : Nat) (h : n < 10 ^ w) (rest : List Char) :
    readDigits w 0 (padNat w n ++ rest) = some (n, rest) := by
  rw [readDigits_pad]
  congr 2
  rw [Nat.mod_eq_of_lt h]
  ring

/-! ## Gregorian civil calendar

Model of the ECMAScript date computations (`YearFromTime`,
`MonthFromTime`, `DateFromTime`, `MakeDay`): a bijection between day
numbers (days since 1970-01-01) and civil dates, written with 400-year
eras in the style of standard calendar algorithms. -/

/-- Days from the start of a 400-year era to the start of (March-based)
year `y` of that era. -/
def eraDays (y : Int) : Int := 365 * y + y / 4 - y / 100

/-- Days from March 1 to the start of March-based month `mp` (0 = March). -/
def monthOffset (mp : Int) : Int := (153 * mp + 2) / 5

/-- March-based year-of-era for day-of-era `doe ∈ [0, 146096]`: a first
approximation `doe / 366` corrected upward by at most one year. -/
def yoeOfDoe (doe : Int) : Int :=
  let y0 := doe / 366
  if y0 + 1 ≤ 399 ∧ eraDays (y0 + 1) ≤ doe then y0 + 1 else y0

/-- Civil (year, month, day) from an era number and a day-of-era. -/
def civilParts (era doe : Int) : Int × Int × Int :=
  let yoe := yoeOfDoe doe
  let doy := doe - eraDays yoe
  let mp := (5 * doy + 2) / 153
  let d := doy - monthOffset mp + 1
  let m := if mp < 10 then mp + 3 else mp - 9
  (era * 400 + yoe + (if m ≤ 2 then 1 else 0), m, d)

/-- Civil (year, month, day) of day number `z0` (days since 1970-01-01). -/
def civilFromDays (z0 : Int) : Int × Int × Int :=
  civilParts ((z0 + 719468) / 146097) ((z0 + 719468) % 146097)

/-- Day number (days since 1970-01-01) of a civil (year, month, day);
models ECMAScript `MakeDay`. -/
def daysFromCivil (y0 m d : Int) : Int :=
  let y := if m ≤ 2 then y0 - 1 else y0
  let mp := if m > 2 then m - 3 else m + 9
  146097 * (y / 400) + eraDays (y % 400) + monthOffset mp + d - 1 - 719468

theorem yoeOfDoe_spec (doe : Int) (h0 : 0 ≤ doe) (h1 : doe ≤ 146096) :
    0 ≤ yoeOfDoe doe ∧ yoeOfDoe doe ≤ 399 ∧
    eraDays (yoeOfDoe doe) ≤ doe ∧ doe - eraDays (yoeOfDoe doe) ≤ 365 := by
  simp only [yoeOfDoe, eraDays]
  split_ifs <;> omega

theorem civilParts_spec (era doe : Int) (h0 : 0 ≤ doe) (h1 : doe ≤ 146096) :
    daysFromCivil (civilParts era doe).1 (civilParts era doe).2.1 (civilParts era doe).2.2 =
      146097 * era + doe - 719468 ∧
    1 ≤ (civilParts era doe).2.1 ∧ (civilParts era doe).2.1 ≤ 12 ∧
    1 ≤ (civilParts era doe).2.2 ∧ (civilParts era doe).2.2 ≤ 31 := by
  obtain ⟨hy0, hy1, hy2, hy3⟩ := yoeOfDoe_spec doe h0 h1
  simp only [civilParts]
  set Y := yoeOfDoe doe with hY
  set D := doe - eraDays Y with hD
  have hmonth : 0 ≤ (5 * D + 2) / 153 ∧ (5 * D + 2) / 153 ≤ 11 ∧
      monthOffset ((5 * D + 2) / 153) ≤ D ∧ D - monthOffset ((5 * D + 2) / 153) ≤ 30 := by
    simp only [monthOffset]; omega
  set MP := (5 * D + 2) / 153 with hMP
  obtain ⟨hmp0, hmp1, hmo0, hmo1⟩ := hmonth
  by_cases hmp : MP < 10
  · simp only [daysFromCivil, if_pos hmp]
    have hm2 : ¬ (MP + 3 ≤ 2) := by omega
    have hm3 : MP + 3 > 2 := by omega
    simp only [if_neg hm2, if_pos hm3]
    have harg : MP + 3 - 3 = MP := by ring
    have h400a : (era * 400 + Y + 0) / 400 = era := by omega
    have h400b : (era * 400 + Y + 0) % 400 = Y := by omega
    rw [harg, h400a, h400b]
    omega
  · simp only [daysFromCivil, if_neg hmp]
    have hm2 : MP - 9 ≤ 2 := by omega
    have hm3 : ¬ (MP - 9 > 2) := by omega
    simp only [if_pos hm2, if_neg hm3]
    have harg : MP - 9 + 9 = MP := by ring
    have h400a : (era * 400 + Y + 1 - 1) / 400 = era := by omega
    have h400b : (era * 400 + Y + 1 - 1) % 400 = Y := by omega
    rw [harg, h400a, h400b]
    omega

theorem daysFromCivil_civilFromDays (z : Int) :
    daysFromCivil (civilFromDays z).1 (civilFromDays z).2.1 (civilFromDays z).2.2 = z ∧
    1 ≤ (civilFromDays z).2.1 ∧ (civilFromDays z).2.1 ≤ 12 ∧
    1 ≤ (civilFromDays z).2.2 ∧ (civilFromDays z).2.2 ≤ 31 := by
  have h0 : 0 ≤ (z + 719468) % 146097 := by omega
  have h1 : (z + 719468) % 146097 ≤ 146096 := by omega
  have h := civilParts_spec ((z + 719468) / 146097) ((z + 719468) % 146097) h0 h1
  simp only [civilFromDays]
  refine ⟨?_, h.2.1, h.2.2.1, h.2.2.2.1, h.2.2.2.2⟩
  rw [h.1]
  omega

theorem civilFromDays_year_bound (z : Int) (hl : -110000000 ≤ z) (hh : z ≤ 110000000) :
    -310000 ≤ (civilFromDays z).1 ∧ (civilFromDays z).1 ≤ 310000 := by
  have h0 : 0 ≤ (z + 719468) % 146097 := by omega
  have h1 : (z + 719468) % 146097 ≤ 146096 := by omega
  obtain ⟨ha, hb, _, _⟩ := yoeOfDoe_spec _ h0 h1
  simp only [civilFromDays, civilParts]
  split_ifs <;> omega

/-! ## ISO-8601 date-time strings

`isoString` models ECMAScript `Date.prototype.toISOString` (the Date Time
String Format `YYYY-MM-DDTHH:mm:ss.sssZ`, with the expanded-year form
`±YYYYYY` outside `[0, 9999]`); `parseIso` models the parsing of exactly
that format performed by `new Date(string)` (returning `none` for an
Invalid Date).  Both are modelled from the ECMAScript specification: the
repository's `VALUE_CONVERTERS.Date` delegates to these built-ins. -/

/-- The year field of the ISO string: four digits for years 0..9999,
otherwise a sign and six digits. -/
def yearChars (y : Int) : List Char :=
  if 0 ≤ y ∧ y ≤ 9999 then padNat 4 y.toNat
  else if 9999 < y then '+' :: padNat 6 y.toNat
  else '-' :: padNat 6 (-y).toNat

/-- The ISO string after the year: `-MM-DDTHH:mm:ss.sssZ`. -/
def timeChars (mo da ho mi se ms : Nat) : List Char :=
  '-' :: (padNat 2 mo ++ '-' :: (padNat 2 da ++ 'T' :: (padNat 2 ho ++
    ':' :: (padNat 2 mi ++ ':' :: (padNat 2 se ++ '.' :: (padNat 3 ms ++ ['Z']))))))

/-- Model of `Date.prototype.toISOString` on the epoch-millisecond
timestamp `t` (defined for `|t| ≤ 8.64e15`, the valid Date range). -/
def isoString (t : Int) : String :=
  let days := t / 86400000
  let msod := (t % 86400000).toNat
  let c := civilFromDays days
  String.mk (yearChars c.1 ++
    timeChars c.2.1.toNat c.2.2.toNat (msod / 3600000) (msod / 60000 % 60)
      (msod / 1000 % 60) (msod % 1000))

/-- Consume one expected character from the front of the input. -/
def expectChar (c : Char) : List Char → Option (List Char)
  | [] => none
  | x :: rest => if x = c then some rest else none

/-- Read the (possibly expanded, possibly signed) ISO year field. -/
def readYear (cs : List Char) : Option (Int × List Char) :=
  match cs with
  | [] => none
  | c :: rest =>
    if c = '+' then (readDigits 6 0 rest).map (fun p => ((p.1 : Int), p.2))
    else if c = '-' then (readDigits 6 0 rest).map (fun p => (-(p.1 : Int), p.2))
    else (readDigits 4 0 (c :: rest)).map (fun p => ((p.1 : Int), p.2))

/-- Read `-MM-DDTHH:mm:ss.sssZ` (the whole rest of the input). -/
def readTime (cs : List Char) : Option (Nat × Nat × Nat × Nat × Nat × Nat) := do
  let r2 ← expectChar '-' cs
  let (mo, r3) ← readDigits 2 0 r2
  let r4 ← expectChar '-' r3
  let (da, r5) ← readDigits 2 0 r4
  let r6 ← expectChar 'T' r5
  let (ho, r7) ← readDigits 2 0 r6
  let r8 ← expectChar ':' r7
  let (mi, r9) ← readDigits 2 0 r8
  let r10 ← expectChar ':' r9
  let (se, r11) ← readDigits 2 0 r10
  let r12 ← expectChar '.' r11
  let (ms, r13) ← readDigits 3 0 r12
  let r14 ← expectChar 'Z' r13
  match r14 with
  | [] => some (mo, da, ho, mi, se, ms)
  | _ => none

/-- Model of `new Date(string)` restricted to the Date Time String
Format: field ranges are validated and the timestamp is range-clipped,
as the ECMAScript specification requires. -/
def parseIso (s : String) : Option Int := do
  let (y, r) ← readYear s.data
  let (mo, da, ho, mi, se, ms) ← readTime r
  if 1 ≤ mo ∧ mo ≤ 12 ∧ 1 ≤ da ∧ da ≤ 31 ∧ ho ≤ 23 ∧ mi ≤ 59 ∧ se ≤ 59 then
    let t := daysFromCivil y (mo : Int) (da : Int) * 86400000 +
      ((ho : Int) * 3600000 + (mi : Int) * 60000 + (se : Int) * 1000 + (ms : Int))
    if -8640000000000000 ≤ t ∧ t ≤ 8640000000000000 then some t else none
  else none

theorem expectChar_self (c : Char) (l : List Char) : expectChar c (c :: l) = some l := by
  simp [expectChar]

theorem readYear_yearChars (y : Int) (rest : List Char)
    (hl : -1000000 < y) (hh : y < 1000000) :
    readYear (yearChars y ++ rest) = some (y, rest) := by
  by_cases h4 : 0 ≤ y ∧ y ≤ 9999
  · have hsplit : padNat 4 y.toNat = digitChar (y.toNat / 10 ^ 3 % 10) :: padNat 3 y.toNat := rfl
    have hd : y.toNat / 10 ^ 3 % 10 < 10 := Nat.mod_lt _ (by norm_num)
    simp only [yearChars, if_pos h4, hsplit, List.cons_append, readYear,
      if_neg (digitChar_ne_plus _ hd), if_neg (digitChar_ne_minus _ hd)]
    rw [← List.cons_append, ← hsplit, readDigits_pad0 4 y.toNat (by omega) rest]
    have hy : ((y.toNat : Nat) : Int) = y := by omega
    simp only [Option.map_some', hy]
  · by_cases h6 : 9999 < y
    · simp only [yearChars, if_neg h4, if_pos h6, List.cons_append, readYear, if_true, if_false]
      rw [readDigits_pad0 6 y.toNat (by omega) rest]
      have hy : ((y.toNat : Nat) : Int) = y := by omega
      simp only [Option.map_some', hy]
    · simp only [yearChars, if_neg h4, if_neg h6, List.cons_append, readYear, if_true, if_false]
      rw [readDigits_pad0 6 (-y).toNat (by omega) rest]
      have hy : (-(((-y).toNat : Nat) : Int)) = y := by omega
      simp only [Option.map_some', hy]
      rw [if_neg (show ('-' : Char) ≠ '+' by decide)]

theorem readTime_timeChars (mo da ho mi se ms : Nat)
    (hmo : mo < 100) (hda : da < 100) (hho : ho < 100) (hmi : mi < 100)
    (hse : se < 100) (hms : ms < 1000) :
    readTime (timeChars mo da ho mi se ms) = some (mo, da, ho, mi, se, ms) := by
  simp only [timeChars, readTime, bind, expectChar_self, Option.some_bind,
    readDigits_pad0 2 mo (by omega), readDigits_pad0 2 da (by omega),
    readDigits_pad0 2 ho (by omega), readDigits_pad0 2 mi (by omega),
    readDigits_pad0 2 se (by omega), readDigits_pad0 3 ms (by omega)]

/-- Round trip: parsing the ISO rendering of any valid timestamp recovers
the timestamp exactly. -/
theorem parseIso_isoString (t : Int)
    (hl : -8640000000000000 ≤ t) (hh : t ≤ 8640000000000000) :
    parseIso (isoString t) = some t := by
  have hdl : -110000000 ≤ t / 86400000 := by omega
  have hdh : t / 86400000 ≤ 110000000 := by omega
  obtain ⟨hrt, hm1, hm2, hd1, hd2⟩ := daysFromCivil_civilFromDays (t / 86400000)
  obtain ⟨hyl, hyh⟩ := civilFromDays_year_bound (t / 86400000) hdl hdh
  have hms0 : 0 ≤ t % 86400000 := by omega
  have hms1 : t % 86400000 < 86400000 := by omega
  simp only [isoString, parseIso, bind]
  rw [readYear_yearChars _ _ (by omega) (by omega)]
  simp only [Option.some_bind]
  rw [readTime_timeChars _ _ _ _ _ _ (by omega) (by omega) (by omega) (by omega)
    (by omega) (by omega)]
  simp only [Option.some_bind]
  rw [if_pos (by refine ⟨by omega, by omega, by omega, by omega, by omega, by omega, by omega⟩)]
  have hcast1 : (((civilFromDays (t / 86400000)).2.1.toNat : Nat) : Int) =
      (civilFromDays (t / 86400000)).2.1 := by omega
  have hcast2 : (((civilFromDays (t / 86400000)).2.2.toNat : Nat) : Int) =
      (civilFromDays (t / 86400000)).2.2 := by omega
  rw [hcast1, hcast2, hrt]
  rw [if_pos (by constructor <;> omega)]
  congr 1
  omega

/-! ## Value conversion (`types.ts` `VALUE_CONVERTERS`)

The repository converts values between TypeScript and SQLite scalars via
`VALUE_CONVERTERS`, keyed by the column's runtime constructor name. -/

/-- JavaScript truthiness (`Boolean(v)`), restricted to our value set. -/
def jsTruthy : JSValue → Bool
  | .vUndefined => false
  | .vNull => false
  | .vBool b => b
  | .vInt n => decide (n ≠ 0)
  | .vStr s => decide (s ≠ "")
  | .vDate _ => true
  | .vInvalidDate => true

/-- `VALUE_CONVERTERS.Boolean.toDb`: `v === true ? 1 : v === false ? 0 : v`. -/
def boolToDb (v : JSValue) : JSValue :=
  if v = .vBool true then .vInt 1 else if v = .vBool false then .vInt 0 else v

/-- `VALUE_CONVERTERS.Boolean.fromDb`: `v === 1 ? true : v === 0 ? false : Boolean(v)`. -/
def boolFromDb (v : JSValue) : JSValue :=
  if v = .vInt 1 then .vBool true else if v = .vInt 0 then .vBool false
  else .vBool (jsTruthy v)

/-- `VALUE_CONVERTERS.Date.toDb`: `v instanceof Date ? v.toISOString() : v`.
(`toISOString` on an Invalid Date throws a RangeError; the sentinel is
passed through here and is excluded from representable values.) -/
def dateToDb : JSValue → JSValue
  | .vDate t => .vStr (isoString t)
  | v => v

/-- `VALUE_CONVERTERS.Date.fromDb`: `typeof v === 'string' ? new Date(v) : v`. -/
def dateFromDb : JSValue → JSValue
  | .vStr s =>
    match parseIso s with
    | some t => .vDate t
    | none => .vInvalidDate
  | v => v

/-- A `{ toDb, fromDb }` converter pair. -/
structure Converter where
  toDb : JSValue → JSValue
  fromDb : JSValue → JSValue

/-- `VALUE_CONVERTERS`: only `Boolean` and `Date` have converters. -/
def valueConverters : String → Option Converter
  | "Boolean" => some ⟨boolToDb, boolFromDb⟩
  | "Date" => some ⟨dateToDb, dateFromDb⟩
  | _ => none

/-- JS `value == null` (matches both `null` and `undefined`). -/
def isNullish : JSValue → Bool
  | .vNull => true
  | .vUndefined => true
  | _ => false

/-! ## Column metadata (`types.ts` `ColumnMetadata`, `decorators.ts`) -/

/-- A `@Column` metadata record: TypeScript property name, database column
name, the runtime type's constructor name (from `design:type`), primary
flag. -/
structure ColumnMetadata where
  property : String
  column : String
  type : Option String
  isPrimary : Bool := false
  deriving DecidableEq, Repr

/-- `Repository.toDbValue`: pass nullish values, absent columns and
untyped columns through; otherwise apply the type's converter if any. -/
def toDbValue (column : Option ColumnMetadata) (value : JSValue) : JSValue :=
  if isNullish value then value
  else
    match column with
    | none => value
    | some c =>
      match c.type with
      | none => value
      | some tn =>
        match valueConverters tn with
        | some conv => conv.toDb value
        | none => value

/-- `Repository.fromDbValue`: the hydration-direction counterpart. -/
def fromDbValue (column : Option ColumnMetadata) (value : JSValue) : JSValue :=
  if isNullish value then value
  else
    match column with
    | none => value
    | some c =>
      match c.type with
      | none => value
      | some tn =>
        match valueConverters tn with
        | some conv => conv.fromDb value
        | none => value

/-- `c.type?.name || "string"` — the type name handed to the compiler and
the entity guard. -/
def typeNameOf (c : ColumnMetadata) : String :=
  match c.type with
  | some t => t
  | none => "string"

/-! ## `EntityMetadata` and the entity guard (`type-guards.ts`) -/

/-- A column as seen by `SqliteCompiler` / `createEntityGuard`. -/
structure GuardColumn where
  name : String
  type : String
  isPrimary : Bool
  deriving DecidableEq, Repr

/-- `EntityMetadata` (`sqlite-dialect` / `type-guards`). -/
structure EntityMetadata where
  tableName : String
  columns : List GuardColumn
  deriving DecidableEq, Repr

/-- An entity instance or a database row: an ordered association list of
string keys to values (JS object with string keys). -/
abbrev JSObject := List (String × JSValue)

/-- JS `k in obj`. -/
def objHasKey (o : JSObject) (k : String) : Bool :=
  o.any (fun kv => kv.1 == k)

/-- JS `obj[k]`: `undefined` when the key is absent. -/
def jsIndex (o : JSObject) (k : String) : JSValue :=
  match o.find? (fun kv => kv.1 == k) with
  | some kv => kv.2
  | none => .vUndefined

/-- `isValidType` from `type-guards.ts`: permissive runtime type check
(null/undefined and unknown type names always pass). -/
def isValidType (v : JSValue) (tsType : String) : Bool :=
  match v with
  | .vNull => true
  | .vUndefined => true
  | _ =>
    if tsType == "number" then
      match v with | .vInt _ => true | _ => false
    else if tsType == "string" then
      match v with | .vStr _ => true | _ => false
    else if tsType == "boolean" then
      match v with | .vBool _ => true | .vInt _ => true | _ => false
    else if tsType == "Date" then
      match v with | .vDate _ => true | .vInvalidDate => true | .vStr _ => true | _ => false
    else true

/-- `createEntityGuard meta`: every declared column name must be a key of
the object and its value must pass `isValidType`. -/
def createEntityGuard (meta : EntityMetadata) (o : JSObject) : Bool :=
  meta.columns.all fun col => objHasKey o col.name && isValidType (jsIndex o col.name) col.type

/-! ## SQL compilation (`sqlite-dialect.ts` `SqliteCompiler`) -/

/-- Double-quote an identifier, as the compiler's template literals do. -/
def quoteIdent (s : String) : String := "\"" ++ s ++ "\""

/-- `Array.prototype.join(sep)`. -/
def joinSep (sep : String) : List String → String
  | [] => ""
  | [x] => x
  | x :: xs => x ++ sep ++ joinSep sep xs

/-- A criteria object: ordered keys (column names after normalisation)
to candidate equality values. -/
abbrev Criteria := List (String × JSValue)

/-- `SqliteCompiler.compileInsert`: a plain parameterized INSERT over every
declared column in order. -/
def compileInsert (meta : EntityMetadata) : String :=
  "INSERT INTO " ++ quoteIdent meta.tableName ++ " (" ++
    joinSep ", " (meta.columns.map (fun c => quoteIdent c.name)) ++ ") VALUES (" ++
    joinSep ", " (meta.columns.map (fun _ => "?")) ++ ")"

/-- `SqliteCompiler.compileSelect`: `SELECT * FROM "t"` plus a conjunctive
WHERE clause when criteria are present. -/
def compileSelect (meta : EntityMetadata) (criteria : Criteria) : String × List JSValue :=
  let base := "SELECT * FROM " ++ quoteIdent meta.tableName
  if criteria.isEmpty then (base, [])
  else
    (base ++ " WHERE " ++ joinSep " AND " (criteria.map (fun kv => quoteIdent kv.1 ++ " = ?")),
     criteria.map Prod.snd)

/-- `SqliteCompiler.compileDelete`. -/
def compileDelete (meta : EntityMetadata) (criteria : Criteria) : String × List JSValue :=
  ("DELETE FROM " ++ quoteIdent meta.tableName ++ " WHERE " ++
     joinSep " AND " (criteria.map (fun kv => quoteIdent kv.1 ++ " = ?")),
   criteria.map Prod.snd)

/-- `SqliteCompiler.compileCount`. -/
def compileCount (meta : EntityMetadata) : String :=
  "SELECT COUNT(*) as count FROM " ++ quoteIdent meta.tableName

/-- Does `s` start with `p`? (Used to read the conflict strategy off the
compiled statement text, as SQLite itself does.) -/
def textStartsWith (p s : String) : Bool := s.take p.length == p

/-! ## The storage engine

Modelled from the spec (§6) and the better-sqlite3 / SQLite documentation:
the engine executes a prepared statement against a store of named tables.
A statement naming an unknown table or column fails to prepare; binding
`undefined` as a parameter is rejected by the driver; a plain INSERT
hitting an existing primary-key value fails with a constraint violation,
while INSERT OR REPLACE replaces the conflicting row. -/

/-- A database row. -/
abbrev Row := JSObject

/-- One table: its declared column names, its primary-key column (if the
create statement declared one), and its rows. -/
structure Table where
  schema : List String
  pkColumn : Option String
  rows : List Row
  deriving DecidableEq, Repr

/-- The store: named tables. -/
abbrev DB := List (String × Table)

/-- Statement-level failures surfaced by the engine. -/
inductive SqlError where
  | noSuchTable (t : String)
  | noSuchColumn (c : String)
  | badBinding
  | constraintViolation
  deriving DecidableEq, Repr

def dbGetTable (db : DB) (name : String) : Option Table :=
  (db.find? (fun p => p.1 == name)).map Prod.snd

def dbReplaceTable (db : DB) (name : String) (tbl : Table) : DB :=
  db.map fun p => if p.1 == name then (p.1, tbl) else p

/-- The value of column `c` in row `r`; a missing cell reads as SQL NULL. -/
def rowCell (r : Row) (c : String) : JSValue :=
  match r.find? (fun kv => kv.1 == c) with
  | some kv => kv.2
  | none => .vNull

/-- SQL `=` on scalars: NULL (and an unbound value) compares equal to
nothing; otherwise compare values. -/
def sqlEq (a b : JSValue) : Bool :=
  match a, b with
  | .vNull, _ => false
  | _, .vNull => false
  | .vUndefined, _ => false
  | _, .vUndefined => false
  | a, b => a == b

/-- Does a row satisfy the conjunction of column-equality criteria? -/
def matchesCriteria (r : Row) (criteria : Criteria) : Bool :=
  criteria.all fun kv => sqlEq (rowCell r kv.1) kv.2

/-- Execute a compiled SELECT: errors if the table or a criteria column
does not exist or a parameter is `undefined`, otherwise returns the rows
matching all criteria, in table order. -/
def dbSelect (db : DB) (name : String) (criteria : Criteria) :
    Except SqlError (List Row) :=
  match dbGetTable db name with
  | none => .error (.noSuchTable name)
  | some tbl =>
    match criteria.find? (fun kv => !(tbl.schema.contains kv.1)) with
    | some kv => .error (.noSuchColumn kv.1)
    | none =>
      if criteria.any (fun kv => kv.2 == JSValue.vUndefined) then .error .badBinding
      else .ok (tbl.rows.filter (fun r => matchesCriteria r criteria))

/-- Execute a compiled INSERT (plain or OR REPLACE) of `vals` into
`cols`: on a primary-key conflict a plain INSERT fails with a constraint
violation and leaves the store unchanged, while INSERT OR REPLACE deletes
the conflicting row and appends the new one. -/
def dbInsert (db : DB) (name : String) (cols : List String) (vals : List JSValue)
    (orReplace : Bool) : Except SqlError DB :=
  match dbGetTable db name with
  | none => .error (.noSuchTable name)
  | some tbl =>
    match cols.find? (fun c => !(tbl.schema.contains c)) with
    | some c => .error (.noSuchColumn c)
    | none =>
      if vals.any (fun v => v == JSValue.vUndefined) then .error .badBinding
      else
        let row : Row := cols.zip vals
        let plainAppend : Except SqlError DB :=
          .ok (dbReplaceTable db name { tbl with rows := tbl.rows ++ [row] })
        match tbl.pkColumn with
        | some pk =>
          if cols.contains pk then
            let pv := rowCell row pk
            if tbl.rows.any (fun r => sqlEq (rowCell r pk) pv) then
              if orReplace then
                .ok (dbReplaceTable db name
                  { tbl with rows :=
                      tbl.rows.filter (fun r => !(sqlEq (rowCell r pk) pv)) ++ [row] })
              else .error .constraintViolation
            else plainAppend
          else plainAppend
        | none => plainAppend

/-! ## The repository (`repository.ts`) -/

/-- The metadata a `Repository` instance reads off the decorators in its
constructor: table name, column metadata, primary-key property. -/
structure RepoMeta where
  tableName : String
  columns : List ColumnMetadata
  primaryKey : Option String
  deriving DecidableEq, Repr

/-- Operation-level failures a repository call can raise. -/
inductive RepoError where
  | storage (e : SqlError)
  | invalidShape
  | entityShape
  | noUpdateFields
  | noPrimaryKey
  deriving DecidableEq, Repr

/-- The `EntityMetadata` the constructor builds for `createEntityGuard`
(note: guard columns carry the database column name and `isPrimary:
false`). -/
def guardMeta (repo : RepoMeta) : EntityMetadata :=
  ⟨repo.tableName, repo.columns.map (fun c => ⟨c.column, typeNameOf c, false⟩)⟩

/-- The `EntityMetadata` `save` hands to `compileInsert` (here `isPrimary`
is `c.property === this.primaryKey`). -/
def insertMeta (repo : RepoMeta) : EntityMetadata :=
  ⟨repo.tableName,
   repo.columns.map (fun c => ⟨c.column, typeNameOf c, repo.primaryKey == some c.property⟩)⟩

/-- `Repository.getColumnName`: `col?.column || prop` — the declared
column name when the property is known (falling back to the property on
an empty column name), the raw property name otherwise. -/
def getColumnName (cols : List ColumnMetadata) (prop : String) : String :=
  match cols.find? (fun c => c.property == prop) with
  | some c => if c.column == "" then prop else c.column
  | none => prop

/-- `Repository.normalizeCriteria`: map each criteria key through
`getColumnName` and each value through `toDbValue`. -/
def normalizeCriteria (cols : List ColumnMetadata) (criteria : Criteria) : Criteria :=
  criteria.map fun kv =>
    (getColumnName cols kv.1, toDbValue (cols.find? (fun c => c.property == kv.1)) kv.2)

/-- `Repository.mapRowToEntity`: a fresh instance with every declared
column's converted value assigned to its bound property (an absent cell
reads as `undefined`, exactly as `row[col.column]` does). -/
def mapRowToEntity (cols : List ColumnMetadata) (row : Row) : JSObject :=
  cols.map fun c => (c.property, fromDbValue (some c) (jsIndex row c.column))

/-- `Repository.find`: full-table select, hydrating every row. -/
def repoFind (repo : RepoMeta) (db : DB) : Except RepoError (List JSObject) :=
  match dbSelect db repo.tableName [] with
  | .error e => .error (.storage e)
  | .ok rows => .ok (rows.map (mapRowToEntity repo.columns))

/-- `Repository.findBy`: empty criteria fall back to `find()`; otherwise
select with the normalised criteria and hydrate (no shape guard). -/
def repoFindBy (repo : RepoMeta) (db : DB) (criteria : Criteria) :
    Except RepoError (List JSObject) :=
  if criteria.isEmpty then repoFind repo db
  else
    match dbSelect db repo.tableName (normalizeCriteria repo.columns criteria) with
    | .error e => .error (.storage e)
    | .ok rows => .ok (rows.map (mapRowToEntity repo.columns))

/-- `Repository.findOneBy`: select (with `LIMIT 1` — the first matching
row), hydrate it, and validate the hydrated instance with the entity
guard, raising on a guard failure; no row means `undefined`. -/
def repoFindOneBy (repo : RepoMeta) (db : DB) (criteria : Criteria) :
    Except RepoError (Option JSObject) :=
  match dbSelect db repo.tableName (normalizeCriteria repo.columns criteria) with
  | .error e => .error (.storage e)
  | .ok rows =>
    match rows.head? with
    | none => .ok none
    | some row =>
      let entity := mapRowToEntity repo.columns row
      if createEntityGuard (guardMeta repo) entity then .ok (some entity)
      else .error .invalidShape

/-- `Repository.save`: guard the entity's shape, convert each column's
bound property value, and run the statement `compileInsert` produced
(whose text determines the conflict strategy). -/
def repoSave (repo : RepoMeta) (db : DB) (entity : JSObject) : Except RepoError DB :=
  if !(createEntityGuard (guardMeta repo) entity) then .error .entityShape
  else
    let values := repo.columns.map fun c => toDbValue (some c) (jsIndex entity c.property)
    let sql := compileInsert (insertMeta repo)
    match dbInsert db repo.tableName (repo.columns.map (fun c => c.column)) values
        (textStartsWith "INSERT OR REPLACE" sql) with
    | .error e => .error (.storage e)
    | .ok db2 => .ok db2

/-! ## The unit of work (`entity-manager.ts`) -/

/-- Modelled from the spec (§6) and the better-sqlite3 documentation:
`db.transaction(fn)` returns a function that runs `fn` inside
BEGIN/COMMIT, rolling every write back if `fn` throws and rethrowing. -/
def engineTransaction {ε α : Type} (fn : DB → Except ε α × DB) (db : DB) :
    Except ε α × DB :=
  match fn db with
  | (.ok a, db2) => (.ok a, db2)
  | (.error e, _) => (.error e, db)

/-- `EntityManager.transaction`: wrap the callback (which receives this
manager and performs saves against the shared connection) in the engine's
transaction primitive and execute it. -/
def emTransaction {ε α : Type} (callback : DB → Except ε α × DB) (db : DB) :
    Except ε α × DB :=
  engineTransaction callback db

/-! ## The decorators (`decorators.ts`) -/

/-- The regex `^[a-zA-Z_][a-zA-Z0-9_]*$`. -/
def isValidTableName (s : String) : Bool :=
  match s.data with
  | [] => false
  | c :: rest => (c.isAlpha || c == '_') && rest.all (fun x => x.isAlphanum || x == '_')

/-- Registration-time failures (`throw new Error(...)` in the decorators;
§7 of the spec names the bad-identifier category `InvalidIdentifier`). -/
inductive RegError where
  | invalidIdentifier (msg : String)
  | missingType (prop : String)
  deriving DecidableEq, Repr

/-- The per-class metadata the decorators accumulate via
`Reflect.defineMetadata` (TABLE_KEY, COLUMN_KEY, PRIMARY_KEY). -/
structure EntityState where
  table : Option String := none
  columns : List ColumnMetadata := []
  primaryKey : Option String := none
  deriving DecidableEq, Repr

/-- The `@Entity(tableName)` decorator: validate the table name, then
store it; a validation failure throws before anything is stored. -/
def entityDecorator (tableName : String) (st : EntityState) :
    Except RegError EntityState :=
  if tableName.trim.length == 0 then
    .error (.invalidIdentifier "Entity decorator requires a non-empty table name.")
  else if !(isValidTableName tableName) then
    .error (.invalidIdentifier ("Invalid table name " ++ quoteIdent tableName))
  else .ok { st with table := some tableName }

/-- The `@Column(columnName?, isPrimary?)` decorator on `propertyKey` with
emitted design type `designType`: append the column's metadata and, when
`isPrimary` is set, store the property as the primary key (overwriting
any previous designation). -/
def columnDecorator (columnName : Option String) (isPrimary : Bool)
    (propertyKey : String) (designType : Option String) (st : EntityState) :
    Except RegError EntityState :=
  match designType with
  | none => .error (.missingType propertyKey)
  | some ty =>
    let col : ColumnMetadata :=
      { property := propertyKey,
        column :=
          match columnName with
          | some s => if s == "" then propertyKey else s
          | none => propertyKey,
        type := some ty,
        isPrimary := isPrimary }
    let st2 : EntityState := { st with columns := st.columns ++ [col] }
    .ok (if isPrimary then { st2 with primaryKey := some propertyKey } else st2)

/-! ## Concrete fixtures

The running example from the spec (§8): entity `User { id: integer
primary, name: text }` over table `users`. -/

def userRepo : RepoMeta :=
  { tableName := "users",
    columns := [{ property := "id", column := "id", type := some "Number", isPrimary := true },
                { property := "name", column := "name", type := some "String" }],
    primaryKey := some "id" }

def usersTable0 : Table := { schema := ["id", "name"], pkColumn := some "id", rows := [] }

def dbU0 : DB := [("users", usersTable0)]

def alice : JSObject := [("id", JSValue.vInt 1), ("name", JSValue.vStr "alice")]

def alice2 : JSObject := [("id", JSValue.vInt 1), ("name", JSValue.vStr "alicia")]

/-- The store after the first `save(alice)`. -/
def dbU1 : DB := [("users", { usersTable0 with rows := [alice] })]

/-- A `users` store whose single row is missing the declared `name`
column. -/
def dbUMissing : DB :=
  [("users", { usersTable0 with rows := [[("id", JSValue.vInt 1)]] })]

/-- A `users` store holding exactly `alice`. -/
def dbUAlice : DB := dbU1

/-- An entity whose column name (`user_id`) differs from its property
name (`id`), as `@Column("user_id") id` declares. -/
def aliasRepo : RepoMeta :=
  { tableName := "t",
    columns := [{ property := "id", column := "user_id", type := some "Number", isPrimary := true }],
    primaryKey := some "id" }

def aliasDb : DB :=
  [("t", { schema := ["user_id"], pkColumn := some "user_id",
           rows := [[("user_id", JSValue.vInt 1)]] })]

/-! ## C1 — identifiers in compiled statements -/

/-- **C1, counterexample.**  The claim says a criteria key that is not a
declared property is rejected or ignored rather than embedded verbatim.
It is not: `getColumnName` falls back to the raw key (`col?.column ||
prop`), and the compiled select embeds that caller-supplied text as the
quoted WHERE-clause identifier. -/
theorem c1_unknown_key_embedded_counterexample :
    (compileSelect (guardMeta userRepo)
      (normalizeCriteria userRepo.columns
        [("bad; DROP TABLE users; --", JSValue.vInt 1)])).1 =
      "SELECT * FROM \"users\" WHERE \"bad; DROP TABLE users; --\" = ?" := by
  rfl

/-- **C1, amended.**  Both halves of the key-to-identifier mapping: a
criteria key naming a declared property (the first column whose
`property` matches, with a nonempty column name) is resolved to that
property's column name before being embedded in the WHERE clause; a key
naming no declared property is neither rejected nor ignored — it is
embedded verbatim (quoted) as the WHERE-clause column identifier. -/
theorem c1_criteria_key_resolution (repo : RepoMeta) (key : String) (v : JSValue) :
    (∀ col : ColumnMetadata,
      repo.columns.find? (fun c => c.property == key) = some col → col.column ≠ "" →
      getColumnName repo.columns key = col.column ∧
      (compileSelect (guardMeta repo) (normalizeCriteria repo.columns [(key, v)])).1 =
        "SELECT * FROM " ++ quoteIdent repo.tableName ++ " WHERE " ++
          (quoteIdent col.column ++ " = ?")) ∧
    ((∀ c ∈ repo.columns, c.property ≠ key) →
      getColumnName repo.columns key = key ∧
      (compileSelect (guardMeta repo) (normalizeCriteria repo.columns [(key, v)])).1 =
        "SELECT * FROM " ++ quoteIdent repo.tableName ++ " WHERE " ++
          (quoteIdent key ++ " = ?")) := by
  constructor
  · intro col hf hne
    constructor
    · simp [getColumnName, hf, hne]
    · simp [normalizeCriteria, compileSelect, getColumnName, hf, hne, joinSep, guardMeta]
  · intro h
    have hf : repo.columns.find? (fun c => c.property == key) = none := by
      rw [List.find?_eq_none]
      intro c hc
      simpa using h c hc
    constructor
    · simp [getColumnName, hf]
    · simp [normalizeCriteria, compileSelect, getColumnName, hf, joinSep, guardMeta]

/-- Witness for C1 (amended), both halves at concrete inputs: the
declared key `id` of the `@Column("user_id") id` entity resolves to
`user_id` in the compiled text, while the malicious unknown key on the
`users` entity is embedded verbatim. -/
theorem c1_criteria_key_resolution_witness :
    ((compileSelect (guardMeta aliasRepo)
        (normalizeCriteria aliasRepo.columns [("id", JSValue.vInt 1)])).1 =
      "SELECT * FROM " ++ quoteIdent aliasRepo.tableName ++ " WHERE " ++
        (quoteIdent "user_id" ++ " = ?")) ∧
    ((compileSelect (guardMeta userRepo)
        (normalizeCriteria userRepo.columns
          [("bad; DROP TABLE users; --", JSValue.vInt 1)])).1 =
      "SELECT * FROM " ++ quoteIdent userRepo.tableName ++ " WHERE " ++
        (quoteIdent "bad; DROP TABLE users; --" ++ " = ?")) :=
  ⟨((c1_criteria_key_resolution aliasRepo "id" (JSValue.vInt 1)).1
      { property := "id", column := "user_id", type := some "Number", isPrimary := true }
      (by rfl) (by decide)).2,
   ((c1_criteria_key_resolution userRepo "bad; DROP TABLE users; --" (JSValue.vInt 1)).2
      (by decide)).2⟩

/-! ## C2 — save is not an upsert -/

set_option maxRecDepth 8000 in
/-- **C2.**  The claim (and `save`'s own doc comment, "Uses SQLite's
INSERT OR REPLACE strategy") says a repeated `save` with the same
primary-key value always overwrites and never errors.  But
`SqliteCompiler.compileInsert` emits a plain `INSERT INTO` — no `OR
REPLACE` — so the second save of a row with primary key 1 fails with a
uniqueness-constraint violation instead of overwriting. -/
theorem c2_repeated_save_constraint_violation :
    compileInsert (insertMeta userRepo) =
      "INSERT INTO \"users\" (\"id\", \"name\") VALUES (?, ?)" ∧
    textStartsWith "INSERT OR REPLACE" (compileInsert (insertMeta userRepo)) = false ∧
    repoSave userRepo dbU0 alice = .ok dbU1 ∧
    repoSave userRepo dbU1 alice2 = .error (.storage .constraintViolation) := by
  refine ⟨rfl, rfl, rfl, rfl⟩

/-! ## C3 — transaction atomicity -/

/-- **C3.**  `EntityManager.transaction` wraps the callback in the
storage engine's transaction primitive: if the callback (performing any
number of saves through any repository bound to the shared connection)
ends in an error, every write it made is rolled back and the store is
left exactly as before the call; if it completes normally, the store it
produced is committed as a whole. -/
theorem c3_transaction_atomicity (ε α : Type) (cb : DB → Except ε α × DB) (db : DB) :
    (∀ e : ε, (cb db).1 = .error e → emTransaction cb db = (.error e, db)) ∧
    (∀ (a : α) (db2 : DB), cb db = (.ok a, db2) → emTransaction cb db = (.ok a, db2)) := by
  constructor
  · intro e he
    simp only [emTransaction, engineTransaction]
    rcases hcb : cb db with ⟨r, db2⟩
    rw [hcb] at he
    simp only at he
    subst he
    rfl
  · intro a db2 hcb
    simp [emTransaction, engineTransaction, hcb]

/-- Entity type A of the spec's atomicity example. -/
def repoA : RepoMeta :=
  { tableName := "as_table",
    columns := [{ property := "id", column := "id", type := some "Number", isPrimary := true }],
    primaryKey := some "id" }

/-- Entity type B of the spec's atomicity example. -/
def repoB : RepoMeta :=
  { tableName := "bs_table",
    columns := [{ property := "id", column := "id", type := some "Number", isPrimary := true }],
    primaryKey := some "id" }

def dbAB : DB :=
  [("as_table", { schema := ["id"], pkColumn := some "id", rows := [] }),
   ("bs_table", { schema := ["id"], pkColumn := some "id", rows := [] })]

/-- A transaction callback that saves an A, saves a B, then raises. -/
def cbSaveSaveRaise (d : DB) : Except RepoError Unit × DB :=
  match repoSave repoA d [("id", JSValue.vInt 1)] with
  | .error e => (.error e, d)
  | .ok d1 =>
    match repoSave repoB d1 [("id", JSValue.vInt 2)] with
    | .error e => (.error e, d1)
    | .ok d2 => (.error .invalidShape, d2)

/-- Witness for C3: the callback saved one A row and one B row before
raising, yet the transaction leaves the store exactly as it was — neither
row is persisted. -/
theorem c3_transaction_atomicity_witness :
    emTransaction cbSaveSaveRaise dbAB = (.error .invalidShape, dbAB) :=
  (c3_transaction_atomicity RepoError Unit cbSaveSaveRaise dbAB).1 .invalidShape (by rfl)

/-! ## C4 — hydration of malformed rows -/

/-- **C4, counterexample.**  The claim says a row missing a declared
column fails row mapping with `MalformedRow`.  It does not: `find` over a
store whose only row lacks the declared `name` column succeeds, returning
an instance whose `name` property is simply `undefined`. -/
theorem c4_missing_column_hydrates_counterexample :
    repoFind userRepo dbUMissing =
      .ok [[("id", JSValue.vInt 1), ("name", JSValue.vUndefined)]] := by
  rfl

/-- **C4, amended.**  Row mapping never fails: `mapRowToEntity` assigns
every declared column's converted value to its bound property — an
absent cell becomes `undefined` rather than an error — and `find`
returns every row of the table hydrated this way (no shape validation on
the `find`/`findBy` paths). -/
theorem c4_hydration_total (repo : RepoMeta) (db : DB) (tbl : Table)
    (htbl : dbGetTable db repo.tableName = some tbl) :
    repoFind repo db = .ok (tbl.rows.map (mapRowToEntity repo.columns)) ∧
    ∀ row : Row, (mapRowToEntity repo.columns row).map Prod.fst =
      repo.columns.map (fun c => c.property) := by
  constructor
  · simp only [repoFind, dbSelect, htbl, List.find?_nil, List.any_nil]
    simp [matchesCriteria]
  · intro row
    simp [mapRowToEntity]

/-- The `users` table holding only the `name`-less row. -/
def usersTblMissing : Table := { usersTable0 with rows := [[("id", JSValue.vInt 1)]] }

/-- Witness for C4 (amended): the `users` store with the `name`-less row. -/
theorem c4_hydration_total_witness :
    repoFind userRepo dbUMissing =
      .ok (usersTblMissing.rows.map (mapRowToEntity userRepo.columns)) ∧
    ∀ row : Row, (mapRowToEntity userRepo.columns row).map Prod.fst =
      userRepo.columns.map (fun c => c.property) :=
  c4_hydration_total userRepo dbUMissing usersTblMissing (by rfl)

/-! ## C5 — absence is not failure -/

/-- **C5.**  When the compiled select itself is well formed (every
normalised criteria column exists in the table and every bound parameter
is defined) and no row matches, `findOneBy` returns the explicit absent
result `undefined` — it does not raise. -/
theorem c5_findOneBy_absent (repo : RepoMeta) (db : DB) (criteria : Criteria) (tbl : Table)
    (htbl : dbGetTable db repo.tableName = some tbl)
    (hcols : ∀ kv ∈ normalizeCriteria repo.columns criteria, kv.1 ∈ tbl.schema)
    (hbind : ∀ kv ∈ normalizeCriteria repo.columns criteria, kv.2 ≠ JSValue.vUndefined)
    (hmatch : ∀ r ∈ tbl.rows,
      matchesCriteria r (normalizeCriteria repo.columns criteria) = false) :
    repoFindOneBy repo db criteria = .ok none := by
  have hfind : (normalizeCriteria repo.columns criteria).find?
      (fun kv => !(tbl.schema.contains kv.1)) = none := by
    rw [List.find?_eq_none]
    intro kv hkv
    simp [hcols kv hkv]
  have hany : (normalizeCriteria repo.columns criteria).any
      (fun kv => kv.2 == JSValue.vUndefined) = false := by
    rw [List.any_eq_false]
    intro kv hkv
    simp [hbind kv hkv]
  have hfilter : tbl.rows.filter
      (fun r => matchesCriteria r (normalizeCriteria repo.columns criteria)) = [] := by
    rw [List.filter_eq_nil_iff]
    intro r hr
    simp [hmatch r hr]
  simp only [repoFindOneBy, dbSelect, htbl, hfind, hany, hfilter]
  rfl

/-- Witness for C5: `findOne({ id: 2 })` against a store whose only row
has `id = 1` returns `undefined`. -/
theorem c5_findOneBy_absent_witness :
    repoFindOneBy userRepo dbUAlice [("id", JSValue.vInt 2)] = .ok none :=
  c5_findOneBy_absent userRepo dbUAlice [("id", JSValue.vInt 2)]
    { usersTable0 with rows := [alice] }
    (by rfl) (by decide) (by decide) (by decide)

/-! ## C6 — value-conversion round trip -/

/-- The values representable in each scalar kind, named by the column's
runtime type: booleans, (valid-range) timestamps, integers, text. -/
def RepresentableIn (tn : String) (v : JSValue) : Prop :=
  (tn = "Boolean" ∧ ∃ b, v = .vBool b) ∨
  (tn = "Number" ∧ ∃ n, v = .vInt n) ∨
  (tn = "String" ∧ ∃ s, v = .vStr s) ∨
  (tn = "Date" ∧ ∃ t, v = .vDate t ∧ -8640000000000000 ≤ t ∧ t ≤ 8640000000000000)

/-- **C6.**  For every scalar kind and every value representable in that
kind, converting to storage and back is the identity:
`fromDbValue (toDbValue v) = v` for booleans, timestamps (exactly, to
millisecond — in particular second — precision), integers and text. -/
theorem c6_round_trip (c : ColumnMetadata) (tn : String) (hty : c.type = some tn)
    (v : JSValue) (hv : RepresentableIn tn v) :
    fromDbValue (some c) (toDbValue (some c) v) = v := by
  rcases hv with ⟨rfl, b, rfl⟩ | ⟨rfl, n, rfl⟩ | ⟨rfl, s, rfl⟩ | ⟨rfl, t, rfl, h1, h2⟩
  · simp only [toDbValue, fromDbValue, hty]
    cases b <;> rfl
  · simp [toDbValue, fromDbValue, hty, isNullish, valueConverters]
  · simp [toDbValue, fromDbValue, hty, isNullish, valueConverters]
  · simp [toDbValue, fromDbValue, hty, isNullish, valueConverters, dateToDb, dateFromDb,
      parseIso_isoString t h1 h2]

/-- Witness for C6: the `Date` kind at a concrete timestamp. -/
theorem c6_round_trip_witness :
    RepresentableIn "Date" (JSValue.vDate 1700000000123) ∧
    fromDbValue (some { property := "at", column := "at", type := some "Date" })
      (toDbValue (some { property := "at", column := "at", type := some "Date" })
        (JSValue.vDate 1700000000123)) = JSValue.vDate 1700000000123 :=
  ⟨Or.inr (Or.inr (Or.inr ⟨rfl, 1700000000123, rfl, by decide, by decide⟩)),
   c6_round_trip { property := "at", column := "at", type := some "Date" } "Date" rfl
     (JSValue.vDate 1700000000123)
     (Or.inr (Or.inr (Or.inr ⟨rfl, 1700000000123, rfl, by decide, by decide⟩)))⟩
/-! ## C7 — the boolean conversion -/

/-- **C7.**  The boolean converter of `VALUE_CONVERTERS` writes `true` as
`1` and `false` as `0`, and on read maps `0` to `false` and every
nonzero integer to `true` (via `Boolean(v)` truthiness). -/
theorem c7_boolean_conversion :
    valueConverters "Boolean" = some ⟨boolToDb, boolFromDb⟩ ∧
    boolToDb (.vBool true) = .vInt 1 ∧
    boolToDb (.vBool false) = .vInt 0 ∧
    boolFromDb (.vInt 0) = .vBool false ∧
    ∀ n : Int, n ≠ 0 → boolFromDb (.vInt n) = .vBool true := by
  refine ⟨rfl, rfl, rfl, rfl, ?_⟩
  intro n hn
  by_cases h1 : n = 1
  · subst h1; rfl
  · have hv1 : (JSValue.vInt n) ≠ .vInt 1 := by simp [h1]
    have hv0 : (JSValue.vInt n) ≠ .vInt 0 := by simp [hn]
    simp [boolFromDb, hv1, hv0, jsTruthy, hn]

/-- Witness for C7: the nonzero integer 5 reads back as `true`. -/
theorem c7_boolean_conversion_witness :
    (5 : Int) ≠ 0 ∧ boolFromDb (.vInt 5) = .vBool true :=
  ⟨by decide, c7_boolean_conversion.2.2.2.2 5 (by decide)⟩

/-! ## C8 — a second primary-key marking -/

/-- **C8, counterexample.**  The claim says marking a second column as
primary fails immediately at declaration time and does not silently
override.  In fact declaring `@Column(undefined, true)` on `a` and then
on `b` succeeds — no error — and the stored primary key is silently
switched from `a` to `b`. -/
theorem c8_second_primary_counterexample :
    (columnDecorator none true "a" (some "Number") {}).bind
      (columnDecorator none true "b" (some "Number")) =
    .ok { table := none,
          columns := [{ property := "a", column := "a", type := some "Number", isPrimary := true },
                      { property := "b", column := "b", type := some "Number", isPrimary := true }],
          primaryKey := some "b" } := by
  rfl

/-- **C8, amended.**  A primary-marking `@Column` declaration never
fails (given an emitted design type): whatever the prior state — in
particular whatever primary key it already records — the declaration
succeeds and overwrites the stored primary key with the new property. -/
theorem c8_second_primary_overrides (st : EntityState) (cn : Option String)
    (p ty : String) :
    ∃ st2 : EntityState,
      columnDecorator cn true p (some ty) st = .ok st2 ∧ st2.primaryKey = some p := by
  refine ⟨_, rfl, ?_⟩
  simp [columnDecorator]

/-! ## C9 — table-name validation at registration time -/

/-- **C9.**  Registering any table name that does not match
`^[A-Za-z_][A-Za-z0-9_]*$` (for example one containing a semicolon or a
quote) fails with an `InvalidIdentifier` error thrown by the `@Entity`
decorator itself — before `Reflect.defineMetadata` runs, so nothing is
registered and nothing is deferred to query time. -/
theorem c9_invalid_table_name (name : String) (st : EntityState)
    (h : isValidTableName name = false) :
    ∃ msg, entityDecorator name st = .error (.invalidIdentifier msg) := by
  unfold entityDecorator
  by_cases he : name.trim.length == 0
  · refine ⟨"Entity decorator requires a non-empty table name.", ?_⟩
    rw [if_pos he]
  · refine ⟨"Invalid table name " ++ quoteIdent name, ?_⟩
    rw [if_neg he, if_pos (by simp [h])]

/-- Witness for C9: a table name with a semicolon is rejected. -/
theorem c9_invalid_table_name_witness :
    isValidTableName "users; DROP TABLE users" = false ∧
    ∃ msg, entityDecorator "users; DROP TABLE users" {} = .error (.invalidIdentifier msg) :=
  ⟨by decide, c9_invalid_table_name "users; DROP TABLE users" {} (by decide)⟩

/-! ## C10 — findOneBy with empty criteria -/

/-- **C10, counterexample.**  The claim says `findOneBy({})` does not
raise and returns the first row hydrated (or `undefined`).  But
`findOneBy` — unlike `find`/`findBy` — validates the hydrated instance
with the entity guard, and the guard looks entity keys up by *column*
name while hydration assigns *property* names: for an entity declared
`@Column("user_id") id`, `findOneBy({})` over a one-row table raises
"Invalid entity shape from database" instead of returning the row. -/
theorem c10_findOneBy_empty_counterexample :
    repoFindOneBy aliasRepo aliasDb [] = .error .invalidShape := by
  rfl

/-- **C10, amended.**  `findOneBy({})` gets no special empty-criteria
handling: the compiled select carries no WHERE clause, so it examines the
first row of the whole table; it returns `undefined` on an empty table
and otherwise returns the first row hydrated — but only if the
post-hydration entity guard accepts it, raising otherwise. -/
theorem c10_findOneBy_empty (repo : RepoMeta) (db : DB) (tbl : Table)
    (htbl : dbGetTable db repo.tableName = some tbl) :
    (compileSelect (guardMeta repo) (normalizeCriteria repo.columns [])).1 =
      "SELECT * FROM " ++ quoteIdent repo.tableName ∧
    (tbl.rows = [] → repoFindOneBy repo db [] = .ok none) ∧
    (∀ (row : Row) (rest : List Row), tbl.rows = row :: rest →
      repoFindOneBy repo db [] =
        (if createEntityGuard (guardMeta repo) (mapRowToEntity repo.columns row)
         then .ok (some (mapRowToEntity repo.columns row))
         else .error .invalidShape)) := by
  refine ⟨by simp [compileSelect, normalizeCriteria, guardMeta], ?_, ?_⟩
  · intro hrows
    simp only [repoFindOneBy, normalizeCriteria, dbSelect, htbl, List.map_nil,
      List.find?_nil, List.any_nil, hrows, List.filter_nil]
    rfl
  · intro row rest hrows
    simp only [repoFindOneBy, normalizeCriteria, dbSelect, htbl, List.map_nil,
      List.find?_nil, List.any_nil, hrows]
    simp [matchesCriteria]

/-- Witness for C10 (amended): the `users` store holding `alice`, whose
column names equal its property names, so the guard accepts and the
first row is returned hydrated. -/
theorem c10_findOneBy_empty_witness :
    (compileSelect (guardMeta userRepo) (normalizeCriteria userRepo.columns [])).1 =
      "SELECT * FROM " ++ quoteIdent userRepo.tableName ∧
    ({ usersTable0 with rows := [alice] : Table }.rows = [] →
      repoFindOneBy userRepo dbUAlice [] = .ok none) ∧
    (∀ (row : Row) (rest : List Row),
      ({ usersTable0 with rows := [alice] : Table }.rows = row :: rest →
        repoFindOneBy userRepo dbUAlice [] =
          (if createEntityGuard (guardMeta userRepo) (mapRowToEntity userRepo.columns row)
           then .ok (some (mapRowToEntity userRepo.columns row))
           else .error .invalidShape))) :=
  c10_findOneBy_empty userRepo dbUAlice { usersTable0 with rows := [alice] } (by rfl)

/-! ## The unused dialect-level value adapter

`sqlite-dialect.ts` also defines a `SqliteAdapter` with `toSqlValue` /
`fromSqlValue`.  `Repository` instantiates it but never calls it — the
live conversion path is `VALUE_CONVERTERS` above.  It is modelled here
for completeness: its boolean read differs from the live path (`value
=== 1` instead of truthiness). -/

/-- `SqliteAdapter.toSqlValue` (`sqlite-dialect.ts`). -/
def toSqlValue (value : JSValue) (tsType : String) : JSValue :=
  if isNullish value then .vNull
  else if tsType == "boolean" then (if jsTruthy value then .vInt 1 else .vInt 0)
  else
    match tsType == "Date", value with
    | true, .vDate t => .vStr (isoString t)
    | _, v => v

/-- `SqliteAdapter.fromSqlValue` (`sqlite-dialect.ts`): note the boolean
read is `value === 1`. -/
def fromSqlValue (value : JSValue) (tsType : String) : JSValue :=
  if isNullish value then .vNull
  else if tsType == "boolean" then .vBool (value == .vInt 1)
  else
    match tsType == "Date", value with
    | true, .vStr s =>
      match parseIso s with
      | some t => .vDate t
      | none => .vInvalidDate
    | _, v => v

/-- The dead-code adapter reads the nonzero integer 2 back as `false`
(unlike the live `VALUE_CONVERTERS` path, which reads it as `true`). -/
theorem fromSqlValue_two_reads_false :
    fromSqlValue (.vInt 2) "boolean" = .vBool false ∧
    boolFromDb (.vInt 2) = .vBool true := by
  refine ⟨rfl, rfl⟩

/-- Witness for C8 (amended): applying the primary-marking declaration
for `b` to the state already recording `a` as primary. -/
theorem c8_second_primary_overrides_witness :
    ∃ st2 : EntityState,
      columnDecorator none true "b" (some "Number")
        { table := none,
          columns := [{ property := "a", column := "a", type := some "Number", isPrimary := true }],
          primaryKey := some "a" } = .ok st2 ∧ st2.primaryKey = some "b" :=
  c8_second_primary_overrides
    { table := none,
      columns := [{ property := "a", column := "a", type := some "Number", isPrimary := true }],
      primaryKey := some "a" } none "b" "Number"
